import Mathlib

/-!
Verification development for the KKTBAI bidding-document pipeline.

This file gives a shallow embedding, in Lean 4, of the pure computational
core of the repository:

* `llmkey.py` — the transport retry loop (`_call_llm_async`), the
  structured-reply repair chain of `_handle_response` (require_json branch)
  and the per-item content generation (`generate_section_content_async`);
* `bidding_workflow.py` — the JSON cleaning function
  (`clean_json_response`), the outline validator (`parse_outline_json`),
  the scheduler (`generate_full_content_async`), the regrouping step
  (`_organize_results`) and the assembler (`_save_results_async`);
* `config.py` — the retry configuration constants.

Strings are modelled as Lean `String`s (Python `str`), machine-level
details such as the network, the event loop and the file system are
abstracted: the transport outcome of each request is an explicit
parameter (an oracle), and the assembler's file write is dropped while
its return value is kept.  Python exceptions are modelled with
`Except String`; an uncaught exception is an `.error` value.
-/

/-! ## Python string primitives used by the source -/

/-- Python `\s` for the ASCII range (the source only feeds ASCII + CJK text
into these functions; the CJK characters are not whitespace). -/
def pyIsSpace (c : Char) : Bool :=
  c == ' ' || c == '\t' || c == '\n' || c == '\r' || c == '\x0b' || c == '\x0c'

/-- Python `str.strip()` (no argument): remove leading and trailing
whitespace. -/
def pyStrip (s : String) : String :=
  String.mk (((s.data.dropWhile pyIsSpace).reverse.dropWhile pyIsSpace).reverse)

/-- Python `str.replace('\\"', '"')`: left-to-right, non-overlapping. -/
def replaceEscQuote : List Char → List Char
  | '\\' :: '"' :: rest => '"' :: replaceEscQuote rest
  | c :: rest => c :: replaceEscQuote rest
  | [] => []

/-- Python `str.replace('\n', '').replace('\r', '')`. -/
def removeNewlines (l : List Char) : List Char :=
  l.filter (fun c => !(c == '\n' || c == '\r'))

/-- Python `re.sub(r'\s+', ' ', s)`: each maximal whitespace run becomes a
single space (leading and trailing runs included).  The flag says we are
inside a run whose space was already emitted. -/
def collapseWsAux : List Char → Bool → List Char
  | [], _ => []
  | c :: rest, inRun =>
    if pyIsSpace c then
      if inRun then collapseWsAux rest true
      else ' ' :: collapseWsAux rest true
    else c :: collapseWsAux rest false

def collapseWs (l : List Char) : List Char := collapseWsAux l false

/-- Python `str.split()` (no argument): split on whitespace runs, dropping
empty pieces.  The accumulator holds the current token, reversed. -/
def splitWsChars : List Char → List Char → List String
  | [], cur => if cur.isEmpty then [] else [String.mk cur.reverse]
  | c :: rest, cur =>
    if pyIsSpace c then
      if cur.isEmpty then splitWsChars rest []
      else String.mk cur.reverse :: splitWsChars rest []
    else splitWsChars rest (c :: cur)

def pySplitWs (s : String) : List String := splitWsChars s.data []

/-- Python `s.split(sep)` for a one-character separator (keeps empty
pieces, `"".split(c) == ['']`). -/
def splitOnCharAux (sep : Char) : List Char → List Char → List String
  | [], cur => [String.mk cur.reverse]
  | c :: rest, cur =>
    if c = sep then String.mk cur.reverse :: splitOnCharAux sep rest []
    else splitOnCharAux sep rest (c :: cur)

def pySplitOnChar (s : String) (sep : Char) : List String :=
  splitOnCharAux sep s.data []

/-- Python `s.startswith(pre)`. -/
def pyStartsWith (s pre : String) : Bool := pre.data.isPrefixOf s.data

/-- Python `s.endswith(suf)`. -/
def pyEndsWith (s suf : String) : Bool :=
  suf.data.reverse.isPrefixOf s.data.reverse

/-- Python `s[n:]`. -/
def pyDrop (s : String) (n : Nat) : String := String.mk (s.data.drop n)

/-- Python `s[:-n]` (for `n ≥ 1`). -/
def pyDropRight (s : String) (n : Nat) : String :=
  String.mk (s.data.take (s.data.length - n))

def containsAux (needle : List Char) : List Char → Bool
  | [] => needle.isEmpty
  | c :: rest => needle.isPrefixOf (c :: rest) || containsAux needle rest

/-- Python `needle in hay` for strings: substring test. -/
def strContains (hay needle : String) : Bool := containsAux needle.data hay.data

/-! ## JSON values and `json.loads` / `json.dumps`

`json.loads` is embedded as a fuel-based recursive-descent parser over the
JSON grammar Python accepts (objects, arrays, strings with the common
escapes, strict numbers plus the `NaN`/`Infinity` extensions, `true`,
`false`, `null`), requiring that nothing but whitespace follows the value.
`json.dumps(obj, ensure_ascii=False, indent=2)` is embedded as the
matching pretty-printer. -/

inductive JValue where
  | null : JValue
  | bool : Bool → JValue
  | num : String → JValue      -- the numeric lexeme as written
  | str : String → JValue
  | arr : List JValue → JValue
  | obj : List (String × JValue) → JValue

def skipWs (l : List Char) : List Char :=
  l.dropWhile (fun c => c == ' ' || c == '\t' || c == '\n' || c == '\r')

def isHexDigit (c : Char) : Bool :=
  c.isDigit || ('a' ≤ c && c ≤ 'f') || ('A' ≤ c && c ≤ 'F')

def hexVal (c : Char) : Nat :=
  if c.isDigit then c.toNat - '0'.toNat
  else if 'a' ≤ c && c ≤ 'f' then c.toNat - 'a'.toNat + 10
  else c.toNat - 'A'.toNat + 10

/-- The single-character JSON escapes Python accepts. -/
def escSimple (e : Char) : Option Char :=
  if e = '"' then some '"'
  else if e = '\\' then some '\\'
  else if e = '/' then some '/'
  else if e = 'n' then some '\n'
  else if e = 't' then some '\t'
  else if e = 'r' then some '\r'
  else if e = 'b' then some '\x08'
  else if e = 'f' then some '\x0c'
  else none

/-- Body of a JSON string literal, after the opening quote.  (`\uXXXX`
escapes of surrogate code points are outside the modelled domain and
rejected.) -/
def parseStringBody : List Char → Option (String × List Char)
  | [] => none
  | '"' :: rest => some ("", rest)
  | '\\' :: 'u' :: h1 :: h2 :: h3 :: h4 :: rest =>
    if isHexDigit h1 && isHexDigit h2 && isHexDigit h3 && isHexDigit h4 then
      let n := ((hexVal h1 * 16 + hexVal h2) * 16 + hexVal h3) * 16 + hexVal h4
      if n.isValidChar then
        match parseStringBody rest with
        | some (s, r') => some (String.singleton (Char.ofNat n) ++ s, r')
        | none => none
      else none
    else none
  | '\\' :: e :: rest =>
    match escSimple e with
    | some c =>
      match parseStringBody rest with
      | some (s, r') => some (String.singleton c ++ s, r')
      | none => none
    | none => none
  | c :: rest =>
    match parseStringBody rest with
    | some (s, r') => some (String.singleton c ++ s, r')
    | none => none

/-- JSON int part: `0` or a nonzero digit followed by digits
(Python rejects leading zeros). -/
def parseIntDigits : List Char → Option (List Char × List Char)
  | '0' :: rest => some (['0'], rest)
  | c :: rest =>
    if c.isDigit then
      let ds := rest.takeWhile Char.isDigit
      some (c :: ds, rest.dropWhile Char.isDigit)
    else none
  | [] => none

def parseFracPart : List Char → Option (List Char × List Char)
  | '.' :: rest =>
    let ds := rest.takeWhile Char.isDigit
    if ds.isEmpty then none
    else some ('.' :: ds, rest.dropWhile Char.isDigit)
  | l => some ([], l)

def parseExpPart : List Char → Option (List Char × List Char)
  | e :: rest =>
    if e = 'e' || e = 'E' then
      let (sgn, rest') :=
        match rest with
        | s :: r => if s = '+' || s = '-' then ([s], r) else (([] : List Char), rest)
        | [] => ([], rest)
      let ds := rest'.takeWhile Char.isDigit
      if ds.isEmpty then none
      else some (e :: (sgn ++ ds), rest'.dropWhile Char.isDigit)
    else some ([], e :: rest)
  | [] => some ([], [])

/-- A JSON number token starting at the head of the input
(sign already included in the input). -/
def parseNumToken (l : List Char) : Option (String × List Char) :=
  let (sgn, l₁) :=
    match l with
    | '-' :: r => ((['-'] : List Char), r)
    | _ => ([], l)
  match parseIntDigits l₁ with
  | none => none
  | some (ip, l₂) =>
    match parseFracPart l₂ with
    | none => none
    | some (fp, l₃) =>
      match parseExpPart l₃ with
      | none => none
      | some (ep, l₄) => some (String.mk (sgn ++ ip ++ fp ++ ep), l₄)

def startsWithChars (pre l : List Char) : Bool :=
  List.isPrefixOf pre l

mutual

def parseValue : Nat → List Char → Option (JValue × List Char)
  | 0, _ => none
  | Nat.succ fuel, cs =>
    match skipWs cs with
    | [] => none
    | c :: rest =>
      if c = '{' then parseObjBody fuel rest
      else if c = '[' then parseArrBody fuel rest
      else if c = '"' then
        match parseStringBody rest with
        | some (s, r) => some (.str s, r)
        | none => none
      else if startsWithChars ['t', 'r', 'u', 'e'] (c :: rest) then
        some (.bool true, (c :: rest).drop 4)
      else if startsWithChars ['f', 'a', 'l', 's', 'e'] (c :: rest) then
        some (.bool false, (c :: rest).drop 5)
      else if startsWithChars ['n', 'u', 'l', 'l'] (c :: rest) then
        some (.null, (c :: rest).drop 4)
      else if startsWithChars ['N', 'a', 'N'] (c :: rest) then
        some (.num "NaN", (c :: rest).drop 3)
      else if startsWithChars ['I', 'n', 'f', 'i', 'n', 'i', 't', 'y'] (c :: rest) then
        some (.num "Infinity", (c :: rest).drop 8)
      else if startsWithChars ['-', 'I', 'n', 'f', 'i', 'n', 'i', 't', 'y'] (c :: rest) then
        some (.num "-Infinity", (c :: rest).drop 9)
      else if c = '-' || c.isDigit then
        match parseNumToken (c :: rest) with
        | some (s, r) => some (.num s, r)
        | none => none
      else none

/-- After the `{`: empty object or member list. -/
def parseObjBody : Nat → List Char → Option (JValue × List Char)
  | 0, _ => none
  | Nat.succ fuel, cs =>
    match skipWs cs with
    | '}' :: rest => some (.obj [], rest)
    | l => parseMembers fuel l []

/-- Members of an object (at the first key, or after a comma). -/
def parseMembers : Nat → List Char → List (String × JValue) →
    Option (JValue × List Char)
  | 0, _, _ => none
  | Nat.succ fuel, cs, acc =>
    match skipWs cs with
    | '"' :: rest =>
      match parseStringBody rest with
      | none => none
      | some (k, r₁) =>
        match skipWs r₁ with
        | ':' :: r₂ =>
          match parseValue fuel r₂ with
          | none => none
          | some (v, r₃) =>
            match skipWs r₃ with
            | ',' :: r₄ => parseMembers fuel r₄ (acc ++ [(k, v)])
            | '}' :: r₄ => some (.obj (acc ++ [(k, v)]), r₄)
            | _ => none
        | _ => none
    | _ => none

/-- After the `[`: empty array or item list. -/
def parseArrBody : Nat → List Char → Option (JValue × List Char)
  | 0, _ => none
  | Nat.succ fuel, cs =>
    match skipWs cs with
    | ']' :: rest => some (.arr [], rest)
    | l => parseItems fuel l []

def parseItems : Nat → List Char → List JValue → Option (JValue × List Char)
  | 0, _, _ => none
  | Nat.succ fuel, cs, acc =>
    match parseValue fuel cs with
    | none => none
    | some (v, r₁) =>
      match skipWs r₁ with
      | ',' :: r₂ => parseItems fuel r₂ (acc ++ [v])
      | ']' :: r₂ => some (.arr (acc ++ [v]), r₂)
      | _ => none

end

/-- Embedding of `json.loads`: parse one value and require only
whitespace after it.  `none` is Python's `json.JSONDecodeError`. -/
def json_parse (s : String) : Option JValue :=
  match parseValue (s.length + 1) s.data with
  | some (v, rest) => if (skipWs rest).isEmpty then some v else none
  | none => none

/-! ### `json.dumps(·, ensure_ascii=False, indent=2)` -/

def jsonEscapeChar (c : Char) : String :=
  if c = '"' then "\\\""
  else if c = '\\' then "\\\\"
  else if c = '\n' then "\\n"
  else if c = '\t' then "\\t"
  else if c = '\r' then "\\r"
  else String.singleton c

def jsonEscape (s : String) : String :=
  String.join (s.data.map jsonEscapeChar)

def indentStr (n : Nat) : String := String.mk (List.replicate n ' ')

mutual

def dumpVal : Nat → JValue → String
  | _, .null => "null"
  | _, .bool true => "true"
  | _, .bool false => "false"
  | _, .num s => s
  | _, .str s => "\"" ++ jsonEscape s ++ "\""
  | _, .arr [] => "[]"
  | lvl, .arr (x :: xs) =>
    "[\n" ++ dumpItems (lvl + 1) (x :: xs) ++ "\n" ++ indentStr (2 * lvl) ++ "]"
  | _, .obj [] => "\x7b\x7d"
  | lvl, .obj (f :: fs) =>
    "\x7b\n" ++ dumpFields (lvl + 1) (f :: fs) ++ "\n" ++ indentStr (2 * lvl) ++ "\x7d"

def dumpItems : Nat → List JValue → String
  | _, [] => ""
  | lvl, [x] => indentStr (2 * lvl) ++ dumpVal lvl x
  | lvl, x :: y :: xs =>
    indentStr (2 * lvl) ++ dumpVal lvl x ++ ",\n" ++ dumpItems lvl (y :: xs)

def dumpFields : Nat → List (String × JValue) → String
  | _, [] => ""
  | lvl, [(k, v)] =>
    indentStr (2 * lvl) ++ "\"" ++ jsonEscape k ++ "\": " ++ dumpVal lvl v
  | lvl, (k, v) :: f :: fs =>
    indentStr (2 * lvl) ++ "\"" ++ jsonEscape k ++ "\": " ++ dumpVal lvl v ++ ",\n"
      ++ dumpFields lvl (f :: fs)

end

def json_dumps (v : JValue) : String := dumpVal 0 v

/-! ## `clean_json_response` (bidding_workflow.py, lines 206-273) -/

/-- The helper `count_unclosed_chars` inside `clean_json_response`:
`max(0, s.count(open) - s.count(close))`, which is `Nat` subtraction. -/
def count_unclosed_chars (s : String) (openChar closeChar : Char) : Nat :=
  s.data.count openChar - s.data.count closeChar

/-- One `re.sub(r',\s*C', 'C', s)` pass for a closer `C`, as the
regex engine scans: `pending` holds (reversed) a comma plus the
whitespace seen after it, not yet known to be part of a match; on the
closer the pending run is replaced by the closer, otherwise it is flushed
verbatim and scanning resumes. -/
def rmCommaAux (closeChar : Char) : List Char → List Char → List Char
  | [], pending => pending.reverse
  | c :: rest, pending =>
    if pending.isEmpty then
      if c = ',' then rmCommaAux closeChar rest [c]
      else c :: rmCommaAux closeChar rest []
    else
      if c = closeChar then closeChar :: rmCommaAux closeChar rest []
      else if pyIsSpace c then rmCommaAux closeChar rest (c :: pending)
      else if c = ',' then pending.reverse ++ rmCommaAux closeChar rest [c]
      else pending.reverse ++ (c :: rmCommaAux closeChar rest [])

def removeCommaBefore (closeChar : Char) (l : List Char) : List Char :=
  rmCommaAux closeChar l []

/-- The code-fence stripping of `clean_json_response` (explicit
`startswith`/`endswith` logic, lines 222-227). -/
def stripFencesClean (s : String) : String :=
  let s₁ :=
    if pyStartsWith s "```json" then pyStrip (pyDrop s 7)
    else if pyStartsWith s "```" then pyStrip (pyDrop s 3)
    else s
  if pyEndsWith s₁ "```" then pyStrip (pyDropRight s₁ 3) else s₁

/-- Index of the first `{` or `[` (Python's `min` of the two `find`s,
treating -1 as absent). -/
def firstStructStart : List Char → Option Nat
  | [] => none
  | c :: rest =>
    if c = '{' || c = '[' then some 0
    else (firstStructStart rest).map (· + 1)

/-- Step 4 of `clean_json_response`: append the count-difference of
closing braces, then of closing brackets (in that order, as the source
does). -/
def complete_brackets (s : String) : String :=
  let brace_diff := count_unclosed_chars s '{' '}'
  let s₁ := if brace_diff > 0 then s ++ String.mk (List.replicate brace_diff '}') else s
  let bracket_diff := count_unclosed_chars s₁ '[' ']'
  if bracket_diff > 0 then s₁ ++ String.mk (List.replicate bracket_diff ']') else s₁

/-- Embedding of `BiddingWorkflow.clean_json_response`.  The final
`try json.loads / except return ""` is the `match` on `json_parse`. -/
def clean_json_response (response : String) : String :=
  if response = "" then ""
  else
    let c₁ := pyStrip response
    let c₂ := String.mk (removeNewlines (replaceEscQuote c₁.data))
    let c₃ := String.mk (collapseWs c₂.data)
    let c₄ := stripFencesClean c₃
    match firstStructStart c₄.data with
    | none => ""
    | some start_idx =>
      let c₅ := String.mk (c₄.data.drop start_idx)
      let c₆ := String.mk (removeCommaBefore '}' c₅.data)
      let c₇ := String.mk (removeCommaBefore ']' c₆.data)
      let c₈ := complete_brackets c₇
      match json_parse c₈ with
      | some _ => c₈
      | none => ""

/-! ## `_handle_response`, `require_json` branch (llmkey.py, lines 201-261) -/

/-- The code-fence stripping regex of `_handle_response`:
`re.sub(r'^```(?:json)?\s*|\s*```\s*$', '', s)`. -/
def stripFencesRe (s : String) : String :=
  let s₁ :=
    if pyStartsWith s "```json" then String.mk ((pyDrop s 7).data.dropWhile pyIsSpace)
    else if pyStartsWith s "```" then String.mk ((pyDrop s 3).data.dropWhile pyIsSpace)
    else s
  let s₂ := String.mk ((s₁.data.reverse.dropWhile pyIsSpace).reverse)
  if pyEndsWith s₂ "```" then
    String.mk (((pyDropRight s₂ 3).data.reverse.dropWhile pyIsSpace).reverse)
  else s₁

/-- The character whitelist of
`re.sub(r'[^一-龥a-zA-Z0-9\[\]{}:"",.\s]', '', content)`:
CJK, ASCII letters and digits, the four delimiters, colon, double quote,
comma, period, whitespace.  Note the backslash itself is removed. -/
def hrKeepChar (c : Char) : Bool :=
  if '一' ≤ c ∧ c ≤ '龥' then true
  else if ('a' ≤ c ∧ c ≤ 'z') ∨ ('A' ≤ c ∧ c ≤ 'Z') ∨ ('0' ≤ c ∧ c ≤ '9') then true
  else if c = '[' ∨ c = ']' ∨ c = '{' ∨ c = '}' ∨ c = ':' ∨ c = '"' ∨ c = ',' ∨ c = '.' then true
  else pyIsSpace c

/-- The bracket scan of `_handle_response` step 3: push on openers, pop on
closers when the stack is nonempty — `Nat` truncated subtraction is
exactly pop-if-nonempty.  Returns (open braces left, open brackets left). -/
def hr_scan : List Char → Nat → Nat → Nat × Nat
  | [], b, k => (b, k)
  | c :: rest, b, k =>
    if c = '{' then hr_scan rest (b + 1) k
    else if c = '}' then hr_scan rest (b - 1) k
    else if c = '[' then hr_scan rest b (k + 1)
    else if c = ']' then hr_scan rest b (k - 1)
    else hr_scan rest b k

/-- The append `content += ']' * len(bracket_stack) + '}' * len(brace_stack)`. -/
def hr_complete (s : String) : String :=
  let p := hr_scan s.data 0 0
  s ++ String.mk (List.replicate p.2 ']') ++ String.mk (List.replicate p.1 '}')

/-- The default single chapter/section/subsection skeleton built in the
`except` branch of `_handle_response` (llmkey.py lines 240-257). -/
def default_outline : JValue :=
  .obj [("body_paragraphs", .arr [
    .obj [("chapter_title", .str "项目验收要求"),
          ("sections", .arr [
            .obj [("section_title", .str "验收阶段"),
                  ("sub_sections", .arr [
                    .obj [("sub_section_title", .str "总体要求"),
                          ("content_summary", .str "项目验收需符合合同及行业规范要求")]])]])]])]

/-- The `require_json` repair chain of `LLMClient._handle_response`
applied to the extracted reply text.  On a successful final parse the
re-serialized text is returned; on failure the source *builds*
`default_outline`, overwrites `content` with it, logs
"使用默认大纲JSON兜底" — and then unconditionally raises
`ValueError(f"Invalid JSON after cleanup: {str(e)}")` (line 261),
discarding the fallback it just built.  The raise is the `.error`
(the Python message carries the decoder detail after the colon). -/
def handle_response_require_json (content : String) : Except String String :=
  let c₁ := stripFencesRe (pyStrip content)
  let c₂ := String.mk (c₁.data.filter hrKeepChar)
  let c₃ := String.mk (removeNewlines (replaceEscQuote c₂.data))
  let quote_count := c₃.data.count '"'
  let c₄ :=
    if quote_count % 2 ≠ 0 then c₃ ++ String.mk (List.replicate (2 - quote_count % 2) '"')
    else c₃
  let c₅ :=
    if pyEndsWith c₄ "\"" || pyEndsWith c₄ ":" || pyEndsWith c₄ "[" || pyEndsWith c₄ "\x7b" then
      c₄ ++ "\"\""
    else c₄
  let c₆ := hr_complete c₅
  match json_parse c₆ with
  | some v => .ok (json_dumps v)
  | none => .error "Invalid JSON after cleanup"

/-! ## Retry configuration (config.py) and the transport retry loop
(`LLMClient._call_llm_async`, llmkey.py lines 110-163) -/

namespace Config

def MAX_RETRIES : Nat := 3
def RETRY_DELAY : ℚ := 2
def RETRY_BACKOFF : ℚ := 3 / 2

end Config

/-- Outcome of one network attempt: the await either times out
(`asyncio.TimeoutError`), returns extracted content, or raises some other
exception. -/
inductive AttemptOutcome where
  | timeout : AttemptOutcome
  | ok : String → AttemptOutcome
  | err : String → AttemptOutcome

/-- The `while retry_count <= Config.MAX_RETRIES` loop of
`_call_llm_async`.  `oracle n` is the outcome of the attempt made when
`retry_count = n`; the returned list records the `asyncio.sleep` waits in
order.  The fuel is `MAX_RETRIES + 1 - retry_count` (the loop guard
`retry_count ≤ MAX_RETRIES` is exactly `fuel ≥ 1`), so the zero-fuel
branch is the unreachable fall-through of the `while`. -/
def call_llm_loop (oracle : Nat → AttemptOutcome) :
    Nat → Nat → List ℚ → List ℚ × Except String String
  | 0, _, delays => (delays, .error "retry loop exited")
  | Nat.succ fuel, rc, delays =>
    match oracle rc with
    | .ok c => (delays, .ok c)
    | .err m => (delays, .error m)
    | .timeout =>
      if rc + 1 ≤ Config.MAX_RETRIES then
        call_llm_loop oracle fuel (rc + 1)
          (delays ++ [Config.RETRY_DELAY * Config.RETRY_BACKOFF ^ (rc + 1 - 1)])
      else (delays, .error "Request timeout after max retries")

/-- Embedding of `_call_llm_async`: the loop entered with `retry_count = 0`. -/
def call_llm (oracle : Nat → AttemptOutcome) : List ℚ × Except String String :=
  call_llm_loop oracle (Config.MAX_RETRIES + 1) 0 []

/-! ## Outline data model (bidding_workflow.py, lines 96-142) -/

structure GenerationProgress where
  total_sections : Nat := 0
  completed_sections : Nat := 0
  current_section : String := ""
deriving DecidableEq

structure SubSection where
  sub_section_title : String
  content_summary : String
deriving DecidableEq

structure Section where
  section_title : String
  sub_sections : List SubSection
deriving DecidableEq

structure Chapter where
  chapter_title : String
  sections : List Section
deriving DecidableEq

structure Outline where
  body_paragraphs : List Chapter
deriving DecidableEq

/-! ## `parse_outline_json` (bidding_workflow.py, lines 379-421)

The input is the already-decoded structured value (the `dict` branch of
the Python function; the string branch first runs `json.loads`).  Python's
untyped membership test and subscription are embedded for the container
shapes that can occur; nodes whose *present* required fields hold
non-string values, and iteration over non-list containers, are outside the
modelled domain and are mapped to distinct `unmodelled:` errors (Python
would raise a `TypeError` or store the non-string value as-is). -/

/-- Lookup in a decoded JSON object.  `json.loads` keeps the first
position but the last value for duplicate keys; fields are stored in
parse order, so the last binding wins. -/
def get_field (fields : List (String × JValue)) (k : String) : Option JValue :=
  (fields.reverse.find? (fun p => p.1 = k)).map (·.2)

def has_field (fields : List (String × JValue)) (k : String) : Bool :=
  (get_field fields k).isSome

/-- Python `k in j` for a decoded JSON value: mapping-key test on dicts,
element equality on lists, substring test on strings, `TypeError`
otherwise. -/
def py_contains_key (j : JValue) (k : String) : Except String Bool :=
  match j with
  | .obj fs => .ok (has_field fs k)
  | .arr xs => .ok (xs.any (fun v => match v with | .str s => s = k | _ => false))
  | .str s => .ok (strContains s k)
  | _ => .error "TypeError: argument is not iterable"

/-- Python `j[k]` for a string key: only dicts support it. -/
def py_getitem (j : JValue) (k : String) : Except String JValue :=
  match j with
  | .obj fs =>
    match get_field fs k with
    | some v => .ok v
    | none => .error "KeyError"
  | _ => .error "TypeError: indices must be integers"

/-- A required field read whose value the dataclasses use as a string. -/
def py_get_str_field (j : JValue) (k : String) : Except String String :=
  match py_getitem j k with
  | .error e => .error e
  | .ok (.str s) => .ok s
  | .ok _ => .error "unmodelled: non-string field value"

def parse_sub_section (j : JValue) : Except String SubSection :=
  match py_contains_key j "sub_section_title" with
  | .error e => .error e
  | .ok h₁ =>
    if !h₁ then .error "Invalid sub_section data"
    else
      match py_contains_key j "content_summary" with
      | .error e => .error e
      | .ok h₂ =>
        if !h₂ then .error "Invalid sub_section data"
        else
          match py_get_str_field j "sub_section_title" with
          | .error e => .error e
          | .ok t =>
            match py_get_str_field j "content_summary" with
            | .error e => .error e
            | .ok s => .ok ⟨t, s⟩

def parse_sub_sections : List JValue → Except String (List SubSection)
  | [] => .ok []
  | j :: rest =>
    match parse_sub_section j with
    | .error e => .error e
    | .ok s =>
      match parse_sub_sections rest with
      | .error e => .error e
      | .ok ss => .ok (s :: ss)

def parse_section (j : JValue) : Except String Section :=
  match py_contains_key j "section_title" with
  | .error e => .error e
  | .ok h₁ =>
    if !h₁ then .error "Invalid section data"
    else
      match py_contains_key j "sub_sections" with
      | .error e => .error e
      | .ok h₂ =>
        if !h₂ then .error "Invalid section data"
        else
          match py_getitem j "sub_sections" with
          | .error e => .error e
          | .ok (.arr subs) =>
            match parse_sub_sections subs with
            | .error e => .error e
            | .ok ss =>
              match py_get_str_field j "section_title" with
              | .error e => .error e
              | .ok t => .ok ⟨t, ss⟩
          | .ok _ => .error "unmodelled: iterating a non-list"

def parse_sections : List JValue → Except String (List Section)
  | [] => .ok []
  | j :: rest =>
    match parse_section j with
    | .error e => .error e
    | .ok s =>
      match parse_sections rest with
      | .error e => .error e
      | .ok ss => .ok (s :: ss)

def parse_chapter (j : JValue) : Except String Chapter :=
  match py_contains_key j "chapter_title" with
  | .error e => .error e
  | .ok h₁ =>
    if !h₁ then .error "Invalid chapter data"
    else
      match py_contains_key j "sections" with
      | .error e => .error e
      | .ok h₂ =>
        if !h₂ then .error "Invalid chapter data"
        else
          match py_getitem j "sections" with
          | .error e => .error e
          | .ok (.arr secs) =>
            match parse_sections secs with
            | .error e => .error e
            | .ok ss =>
              match py_get_str_field j "chapter_title" with
              | .error e => .error e
              | .ok t => .ok ⟨t, ss⟩
          | .ok _ => .error "unmodelled: iterating a non-list"

def parse_chapters : List JValue → Except String (List Chapter)
  | [] => .ok []
  | j :: rest =>
    match parse_chapter j with
    | .error e => .error e
    | .ok c =>
      match parse_chapters rest with
      | .error e => .error e
      | .ok cs => .ok (c :: cs)

/-- The body of `parse_outline_json` once `data` is in hand (root shape
check, then the chapter loop). -/
def parse_outline_data (j : JValue) : Except String Outline :=
  match j with
  | .obj fs =>
    if has_field fs "body_paragraphs" then
      match get_field fs "body_paragraphs" with
      | some (.arr chs) =>
        match parse_chapters chs with
        | .error e => .error e
        | .ok cs => .ok ⟨cs⟩
      | some _ => .error "unmodelled: iterating a non-list"
      | none => .error "KeyError"
    else .error "Invalid outline JSON: missing body_paragraphs"
  | _ => .error "Invalid outline JSON: missing body_paragraphs"

/-- Python truthiness of a decoded JSON value (`if not outline_json`). -/
def jTruthy : JValue → Bool
  | .null => false
  | .bool b => b
  | .num s => (s.data.any (fun c => c.isDigit && c ≠ '0')) || s = "NaN"
      || s = "Infinity" || s = "-Infinity"
  | .str s => s ≠ ""
  | .arr xs => !xs.isEmpty
  | .obj fs => !fs.isEmpty

/-- Embedding of `parse_outline_json` on an already-decoded value (the `dict` branch). -/
def parse_outline_json_val (j : JValue) : Except String Outline :=
  if jTruthy j then parse_outline_data j else .error "Empty input received"

/-- Embedding of `parse_outline_json` on a string (the `str` branch: `json.loads`
first). -/
def parse_outline_json_str (s : String) : Except String Outline :=
  if s = "" then .error "Empty input received"
  else
    match json_parse s with
    | none => .error "JSONDecodeError"
    | some j => parse_outline_data j

/-! ## Content scheduler and assembler
(`generate_full_content_async`, `_organize_results`, `_save_results_async`;
bidding_workflow.py lines 515-614) -/

/-- One entry of `sections_to_generate`
(`{'title': ..., 'content_summary': ..., 'chapter': ...}`). -/
structure WorkItem where
  title : String
  content_summary : String
  chapter : String
deriving DecidableEq

/-- One entry of `results`
(`{'title': ..., 'content': ...}` from `generate_section_content_async`). -/
structure Fragment where
  title : String
  content : String
deriving DecidableEq

/-- The triple loop of `generate_full_content_async` building
`sections_to_generate` by appending one work item per subsection. -/
def flatten_outline (o : Outline) : List WorkItem :=
  o.body_paragraphs.foldl (fun acc ch =>
    ch.sections.foldl (fun acc₂ sec =>
      sec.sub_sections.foldl (fun acc₃ sub =>
        acc₃ ++ [⟨sub.sub_section_title, sub.content_summary, ch.chapter_title⟩])
        acc₂)
      acc)
    []

/-- Embedding of `LLMClient.generate_section_content_async` (llmkey.py lines 267-302):
the transport outcome for the item is `gen w` — content on success, the
raised exception's message otherwise.  Failures become placeholder
fragments, never missing ones. -/
def generate_section_content (gen : WorkItem → Except String String) (w : WorkItem) :
    Fragment :=
  match gen w with
  | .ok c => ⟨w.title, if c = "" then "生成失败，请手动补充。" else c⟩
  | .error e => ⟨w.title, "生成失败：" ++ e⟩

/-- All per-item results, in declaration order (`asyncio.gather` keeps
task order inside each batch and batches are concatenated in order, so
batching does not change the list). -/
def expand_results (o : Outline) (gen : WorkItem → Except String String) : List Fragment :=
  (flatten_outline o).map (generate_section_content gen)

/-- The dict-update step of `_organize_results`: append the result to the
chapter's list, creating the key at the end on first sight (Python dict
insertion order). -/
def chapter_insert : List (String × List Fragment) → String → Fragment →
    List (String × List Fragment)
  | [], ch, r => [(ch, [r])]
  | (c, rs) :: t, ch, r =>
    if c = ch then (c, rs ++ [r]) :: t
    else (c, rs) :: chapter_insert t ch r

/-- Embedding of `BiddingWorkflow._organize_results`: `zip(results, sections)` grouped
by the work item's chapter title, first-seen key order. -/
def organize_results (results : List Fragment) (sections : List WorkItem) :
    List (String × List Fragment) :=
  (results.zip sections).foldl (fun acc pr => chapter_insert acc pr.2.chapter pr.1) []

/-- The prefix extraction `'.'.join(section['title'].split()[:1][0].split('.')[:2])`.
`none` is the `IndexError` Python raises when the title has no
whitespace-separated token at all. -/
def section_number_of (title : String) : Option String :=
  match pySplitWs title with
  | [] => none
  | tok :: _ => some (String.intercalate "." ((pySplitOnChar tok '.').take 2))

/-- The group label `next((t for t in title.split('\n') if t.startswith(num + ' ')),
num + ' ' + '未知标题')`. -/
def group_title (num : String) (title : String) : String :=
  match (pySplitOnChar title '\n').find? (fun line => pyStartsWith line (num ++ " ")) with
  | some l => l
  | none => num ++ " " ++ "未知标题"

/-- One group of `section_groups`: the numeric key, the `'title'` entry
(set when the key is first created) and the `'subsections'` list. -/
structure SGroup where
  num : String
  title : String
  subs : List Fragment
deriving DecidableEq

/-- Append into an existing group, or create a new one at the end
(Python dict insertion order); the group title is fixed by the first
fragment that creates the key. -/
def add_to_groups : List SGroup → String → String → Fragment → List SGroup
  | [], num, gtitle, f => [⟨num, gtitle, [f]⟩]
  | g :: t, num, gtitle, f =>
    if g.num = num then ⟨g.num, g.title, g.subs ++ [f]⟩ :: t
    else g :: add_to_groups t num gtitle f

/-- The `section_groups` loop of `_save_results_async` for one chapter.
The `.error` is the `IndexError` on a token-less title, caught by the
function's outer `except`. -/
def build_groups_aux (gs : List SGroup) : List Fragment → Except String (List SGroup)
  | [] => .ok gs
  | f :: fs =>
    match section_number_of f.title with
    | none => .error "IndexError: list index out of range"
    | some num => build_groups_aux (add_to_groups gs num (group_title num f.title) f) fs

def build_groups (frags : List Fragment) : Except String (List SGroup) :=
  build_groups_aux [] frags

/-- Python `str.__lt__`: lexicographic comparison by code point. -/
def strLtChars : List Char → List Char → Bool
  | [], [] => false
  | [], _ :: _ => true
  | _ :: _, [] => false
  | a :: as, b :: bs =>
    if a < b then true
    else if b < a then false
    else strLtChars as bs

/-- Comparison `a <= b` on Python strings (total order: `not (b < a)`). -/
def pyStrLe (a b : String) : Bool := !(strLtChars b.data a.data)

/-- Embedding of `sorted(section_groups.keys())`: Python's `sorted` returns the keys
(distinct, since they are dict keys) ordered by lexicographic string
comparison. -/
def sorted_group_keys (gs : List SGroup) : List String :=
  List.insertionSort (fun a b : String => pyStrLe a b = true) (gs.map SGroup.num)

def find_group (gs : List SGroup) (num : String) : Option SGroup :=
  gs.find? (fun g => g.num = num)

/-- The `content_parts` contributed by one chapter: the chapter heading,
then each numeric group in sorted key order (`section_groups[num]` always
exists for a key taken from the dict, hence the `Option.elim` default is
dead). -/
def chapter_parts (chapter : String) (frags : List Fragment) :
    Except String (List String) :=
  match build_groups frags with
  | .error e => .error e
  | .ok gs =>
    .ok (("# " ++ chapter ++ "\n\n") ::
      (sorted_group_keys gs).foldr (fun num acc =>
        ((find_group gs num).elim [] (fun g =>
          ("## " ++ g.title ++ "\n\n") ::
            g.subs.map (fun sub => "### " ++ sub.title ++ "\n\n" ++ sub.content ++ "\n\n")))
          ++ acc) [])

def all_chapter_parts : List (String × List Fragment) → Except String (List String)
  | [] => .ok []
  | (ch, frags) :: rest =>
    match chapter_parts ch frags with
    | .error e => .error e
    | .ok ps =>
      match all_chapter_parts rest with
      | .error e => .error e
      | .ok qs => .ok (ps ++ qs)

/-- Embedding of `BiddingWorkflow._save_results_async`: build all parts and join with
`"\n"`; any exception inside is caught and turned into `(False, "")`
(the file write is dropped). -/
def save_results (organized : List (String × List Fragment)) : Bool × String :=
  match all_chapter_parts organized with
  | .ok parts => (true, String.intercalate "\n" parts)
  | .error _ => (false, "")

/-- The mutable workflow attributes `generate_full_content_async` can
touch (`BiddingWorkflow.__init__` sets both to their defaults). -/
structure WorkflowState where
  progress : GenerationProgress
  full_document_content : String
deriving DecidableEq

def init_state : WorkflowState := ⟨{}, ""⟩

/-- Embedding of `BiddingWorkflow.generate_full_content_async`: flatten, generate every
item (batching changes only timing, not the result list), organize,
save; on success with nonempty content store the document.  Returns the
updated state and the returned boolean — which is exactly the save flag. -/
def generate_full_content (st : WorkflowState) (outline : Option Outline)
    (gen : WorkItem → Except String String) : WorkflowState × Bool :=
  match outline with
  | none => (st, false)
  | some o =>
    let sections := flatten_outline o
    let results := sections.map (generate_section_content gen)
    let organized := organize_results results sections
    let sv := save_results organized
    if sv.1 && sv.2 ≠ "" then ({ st with full_document_content := sv.2 }, sv.1)
    else (st, sv.1)

/-! ## Validity predicates and concrete inputs used by the theorems -/

/-- A chapter node that `parse_chapter` accepts: a mapping with a string
`chapter_title` and a `sections` list of valid section nodes. -/
def py_str_field_ok (fs : List (String × JValue)) (k : String) : Bool :=
  match get_field fs k with
  | some (.str _) => true
  | _ => false

def subSectionOK : JValue → Bool
  | .obj fs => py_str_field_ok fs "sub_section_title" && py_str_field_ok fs "content_summary"
  | _ => false

def sectionOK : JValue → Bool
  | .obj fs =>
    py_str_field_ok fs "section_title" &&
      (match get_field fs "sub_sections" with
       | some (.arr xs) => xs.all subSectionOK
       | _ => false)
  | _ => false

def chapterOK : JValue → Bool
  | .obj fs =>
    py_str_field_ok fs "chapter_title" &&
      (match get_field fs "sections" with
       | some (.arr xs) => xs.all sectionOK
       | _ => false)
  | _ => false

/-- A chapter node carrying only a title — `sections` is missing. -/
def chapter_missing_sections (t : String) : JValue :=
  .obj [("chapter_title", .str t)]

/-- An outline reply whose chapter list is `chs`. -/
def outline_with_chapters (chs : List JValue) : JValue :=
  .obj [("body_paragraphs", .arr chs)]

/-- The no-underflow condition for a bracket string: scanning left to
right, no closing `}` or `]` ever arrives with its stack empty ("no
interior corruption"). -/
def prefix_ok : List Char → Nat → Nat → Bool
  | [], _, _ => true
  | c :: rest, b, k =>
    if c = '{' then prefix_ok rest (b + 1) k
    else if c = '}' then decide (1 ≤ b) && prefix_ok rest (b - 1) k
    else if c = '[' then prefix_ok rest b (k + 1)
    else if c = ']' then decide (1 ≤ k) && prefix_ok rest b (k - 1)
    else prefix_ok rest b k

/-- Leaf items of one chapter, in declaration order. -/
def chapter_leaf_items (ch : Chapter) : List WorkItem :=
  ch.sections.bind (fun sec =>
    sec.sub_sections.map (fun sub =>
      ⟨sub.sub_section_title, sub.content_summary, ch.chapter_title⟩))

/-- Outline with two leaf work items in one chapter (used against the
scheduler claims). -/
def o_two_leaves : Outline :=
  ⟨[⟨"C", [⟨"1 s", [⟨"1.1 a", "d1"⟩, ⟨"1.2 b", "d2"⟩]⟩]⟩]⟩

/-- Transport oracle failing for exactly the first of the two items. -/
def gen_one_failure : WorkItem → Except String String :=
  fun w => if w.title = "1.1 a" then .error "boom" else .ok "real content"

/-- Outline with two distinct-title chapters used for the progress claim. -/
def o_progress : Outline :=
  ⟨[⟨"C1", [⟨"1 s", [⟨"1.1 a", "d1"⟩]⟩]⟩, ⟨"C2", [⟨"2 s", [⟨"2.1 b", "d2"⟩]⟩]⟩]⟩

def gen_all_ok : WorkItem → Except String String := fun _ => .ok "content"

/-- Outline whose first chapter has no leaf subsections. -/
def o_empty_chapter : Outline :=
  ⟨[⟨"A", []⟩, ⟨"B", [⟨"s", [⟨"1.1 x", "d"⟩]⟩]⟩]⟩

def gen_body : WorkItem → Except String String := fun _ => .ok "body"

/-- The all-timeouts transport oracle. -/
def oracle_timeout : Nat → AttemptOutcome := fun _ => .timeout

/-! ## Theorems -/

/-- Claim C1 (code_bug evidence).  On entirely unparsable garbage the
`require_json` repair of `_handle_response` does *not* return the default
single chapter/section/subsection skeleton: it raises
`ValueError("Invalid JSON after cleanup: ...")` (llmkey.py line 261),
even though lines 240-258 just built that skeleton precisely so that
"前端能解析" — the fallback assignment is dead code.  The second conjunct
shows the claim's expectation about the skeleton itself is right: the
outline parser accepts it. -/
theorem repair_raises_instead_of_returning_default_skeleton :
    handle_response_require_json "hello" = .error "Invalid JSON after cleanup"
    ∧ parse_outline_json_val default_outline =
        .ok ⟨[⟨"项目验收要求",
              [⟨"验收阶段", [⟨"总体要求", "项目验收需符合合同及行业规范要求"⟩]⟩]⟩]⟩ := by
  exact ⟨rfl, rfl⟩

/-- Claim C5 (counterexample).  Running the scheduler on an outline with two
leaf work items leaves `GenerationProgress.total_sections` at `0`: the
count of flattened leaves is never recorded in `GenerationProgress`, and
`completed_sections` never advances. -/
theorem progress_never_updated_counterexample :
    (generate_full_content init_state (some o_progress) gen_all_ok).1.progress
        = ⟨0, 0, ""⟩
    ∧ (flatten_outline o_progress).length = 2
    ∧ (0 : Nat) ≠ 2 := by
  refine ⟨rfl, rfl, by decide⟩

/-- Claim C5 (amended).  `generate_full_content_async` computes the section
count and per-batch completion counts only as local values for logging;
it never writes `GenerationProgress`, whose fields keep whatever values
they had before the call. -/
theorem scheduler_leaves_progress_unchanged (st : WorkflowState)
    (outline : Option Outline) (gen : WorkItem → Except String String) :
    (generate_full_content st outline gen).1.progress = st.progress := by
  unfold generate_full_content
  cases outline with
  | none => rfl
  | some o =>
    dsimp only
    split <;> rfl

/-- Claim C2 (counterexample).  With exactly one failed transport call out
of two work items, `expand` does return `N = 2` fragments — one real, one
placeholder — but the returned flag is `true`, not `false`: the flag
reflects only the save step, never per-item failures. -/
theorem expand_flag_true_despite_item_failure :
    (generate_full_content init_state (some o_two_leaves) gen_one_failure).2 = true
    ∧ expand_results o_two_leaves gen_one_failure =
        [⟨"1.1 a", "生成失败：boom"⟩, ⟨"1.2 b", "real content"⟩] := by
  exact ⟨rfl, rfl⟩

/-- Claim C7 (counterexample).  A chapter with no leaf subsections is
dropped by the regrouping: the source outline lists chapters
`["A", "B"]`, but the assembled grouping contains only `["B"]`. -/
theorem empty_chapter_dropped_counterexample :
    (organize_results (expand_results o_empty_chapter gen_body)
        (flatten_outline o_empty_chapter)).map Prod.fst = ["B"]
    ∧ o_empty_chapter.body_paragraphs.map Chapter.chapter_title = ["A", "B"]
    ∧ (["B"] : List String) ≠ ["A", "B"] := by
  refine ⟨rfl, rfl, by decide⟩

/-- Claim C9 (counterexample).  A fragment whose title is empty (no
whitespace-separated token) does not fall back to the "未知标题" label:
`section['title'].split()[:1][0]` raises `IndexError`, the outer
`except` catches it, and `_save_results_async` returns `(False, "")` —
no document is produced. -/
theorem empty_title_aborts_assembly_counterexample :
    save_results [("C", [⟨"", "body text"⟩])] = (false, "") := by
  exact rfl

/-- Claim C6 (counterexample).  On the truncated text `[ {"a": 1` (one
unmatched bracket and one unmatched brace, no interior corruption)
`clean_json_response` appends the missing closers in brace-then-bracket
order — the result is `[ {"a": 1}]`, not the bracket-then-brace
`[ {"a": 1]}` the claim prescribes. -/
theorem clean_appends_brace_then_bracket_counterexample :
    clean_json_response "[ \x7b\"a\": 1" = "[ \x7b\"a\": 1" ++ "\x7d" ++ "]"
    ∧ clean_json_response "[ \x7b\"a\": 1" ≠ "[ \x7b\"a\": 1" ++ "]" ++ "\x7d" := by
  refine ⟨rfl, by decide⟩

/-- Claim C10 (confirmed).  `clean_json_response` is total — every branch
returns a string, no branch raises — and its result is either the empty
string or text that the strict JSON parse it gates on accepts: non-empty
unparseable text is never returned. -/
theorem clean_json_response_empty_or_parseable (s : String) :
    clean_json_response s = ""
    ∨ (json_parse (clean_json_response s)).isSome = true := by
  unfold clean_json_response
  split
  · exact Or.inl rfl
  · dsimp only
    split
    · exact Or.inl rfl
    · split
      · next _ heq => exact Or.inr (by simp [heq])
      · exact Or.inl rfl

/-- Claim C3 (confirmed).  If every attempt times out, the transport loop
makes the initial attempt plus `MAX_RETRIES` retries, sleeping
`RETRY_DELAY * RETRY_BACKOFF ^ (k - 1)` before retry attempt `k`
(the recorded delay list is indexed from 0), and then fails with
`ValueError("Request timeout after max retries")` instead of returning
content. -/
theorem transport_timeout_retry_schedule (oracle : Nat → AttemptOutcome)
    (h : ∀ k, k ≤ Config.MAX_RETRIES → oracle k = .timeout) :
    call_llm oracle =
      ((List.range Config.MAX_RETRIES).map
          (fun i => Config.RETRY_DELAY * Config.RETRY_BACKOFF ^ i),
        .error "Request timeout after max retries") := by
  have h0 := h 0 (by norm_num [Config.MAX_RETRIES])
  have h1 := h 1 (by norm_num [Config.MAX_RETRIES])
  have h2 := h 2 (by norm_num [Config.MAX_RETRIES])
  have h3 := h 3 (by norm_num [Config.MAX_RETRIES])
  simp [call_llm, call_llm_loop, h0, h1, h2, h3, Config.MAX_RETRIES, List.range_succ]

/-- Witness for `transport_timeout_retry_schedule` at the concrete
always-timeout oracle. -/
theorem transport_timeout_retry_schedule_witness :
    (∀ k, k ≤ Config.MAX_RETRIES → oracle_timeout k = .timeout)
    ∧ call_llm oracle_timeout =
        ((List.range Config.MAX_RETRIES).map
            (fun i => Config.RETRY_DELAY * Config.RETRY_BACKOFF ^ i),
          .error "Request timeout after max retries") :=
  ⟨fun _ _ => rfl, transport_timeout_retry_schedule oracle_timeout (fun _ _ => rfl)⟩

/-- The two completion scans, related to plain character counts on inputs
with no interior corruption: if no closer ever arrives with an empty
stack, the stack sizes left by `_handle_response`'s scan are exactly the
count differences, and closers never outnumber openers. -/
theorem hr_scan_of_prefix_ok : ∀ (cs : List Char) (b k : Nat), prefix_ok cs b k = true →
    hr_scan cs b k = (b + cs.count '{' - cs.count '}', k + cs.count '[' - cs.count ']')
    ∧ cs.count '}' ≤ b + cs.count '{' ∧ cs.count ']' ≤ k + cs.count '[' := by
  intro cs
  induction cs with
  | nil => intro b k _; simp [hr_scan]
  | cons c rest ih =>
    intro b k hok
    by_cases h1 : c = '{'
    · subst h1
      simp only [prefix_ok, if_pos rfl] at hok
      obtain ⟨e1, i1, i2⟩ := ih (b + 1) k hok
      have hstep : hr_scan ('{' :: rest) b k = hr_scan rest (b + 1) k := rfl
      have c1 : List.count '{' ('{' :: rest) = List.count '{' rest + 1 := by simp
      have c2 : List.count '}' ('{' :: rest) = List.count '}' rest := by simp
      have c3 : List.count '[' ('{' :: rest) = List.count '[' rest := by simp
      have c4 : List.count ']' ('{' :: rest) = List.count ']' rest := by simp
      simp only [hstep, e1, c1, c2, c3, c4, Prod.mk.injEq, and_true, true_and]
      omega
    · by_cases h2 : c = '}'
      · subst h2
        simp [prefix_ok, h1] at hok
        obtain ⟨hb1, hok⟩ := hok
        obtain ⟨e1, i1, i2⟩ := ih (b - 1) k hok
        have hstep : hr_scan ('}' :: rest) b k = hr_scan rest (b - 1) k := rfl
        have c1 : List.count '{' ('}' :: rest) = List.count '{' rest := by simp
        have c2 : List.count '}' ('}' :: rest) = List.count '}' rest + 1 := by simp
        have c3 : List.count '[' ('}' :: rest) = List.count '[' rest := by simp
        have c4 : List.count ']' ('}' :: rest) = List.count ']' rest := by simp
        simp only [hstep, e1, c1, c2, c3, c4, Prod.mk.injEq, and_true, true_and]
        omega
      · by_cases h3 : c = '['
        · subst h3
          simp [prefix_ok, h1, h2] at hok
          obtain ⟨e1, i1, i2⟩ := ih b (k + 1) hok
          have hstep : hr_scan ('[' :: rest) b k = hr_scan rest b (k + 1) := rfl
          have c1 : List.count '{' ('[' :: rest) = List.count '{' rest := by simp
          have c2 : List.count '}' ('[' :: rest) = List.count '}' rest := by simp
          have c3 : List.count '[' ('[' :: rest) = List.count '[' rest + 1 := by simp
          have c4 : List.count ']' ('[' :: rest) = List.count ']' rest := by simp
          simp only [hstep, e1, c1, c2, c3, c4, Prod.mk.injEq, and_true, true_and]
          omega
        · by_cases h4 : c = ']'
          · subst h4
            simp [prefix_ok, h1, h2, h3] at hok
            obtain ⟨hk1, hok⟩ := hok
            obtain ⟨e1, i1, i2⟩ := ih b (k - 1) hok
            have hstep : hr_scan (']' :: rest) b k = hr_scan rest b (k - 1) := rfl
            have c1 : List.count '{' (']' :: rest) = List.count '{' rest := by simp
            have c2 : List.count '}' (']' :: rest) = List.count '}' rest := by simp
            have c3 : List.count '[' (']' :: rest) = List.count '[' rest := by simp
            have c4 : List.count ']' (']' :: rest) = List.count ']' rest + 1 := by simp
            simp only [hstep, e1, c1, c2, c3, c4, Prod.mk.injEq, and_true, true_and]
            omega
          · have h1' : ¬('{' = c) := fun h => h1 h.symm
            have h2' : ¬('}' = c) := fun h => h2 h.symm
            have h3' : ¬('[' = c) := fun h => h3 h.symm
            have h4' : ¬(']' = c) := fun h => h4 h.symm
            simp [prefix_ok, h1, h2, h3, h4] at hok
            obtain ⟨e1, i1, i2⟩ := ih b k hok
            have hstep : hr_scan (c :: rest) b k = hr_scan rest b k := by
              simp [hr_scan, h1, h2, h3, h4]
            have c1 : List.count '{' (c :: rest) = List.count '{' rest := by
              simp [List.count_cons, h1']
            have c2 : List.count '}' (c :: rest) = List.count '}' rest := by
              simp [List.count_cons, h2']
            have c3 : List.count '[' (c :: rest) = List.count '[' rest := by
              simp [List.count_cons, h3']
            have c4 : List.count ']' (c :: rest) = List.count ']' rest := by
              simp [List.count_cons, h4']
            simp only [hstep, e1, c1, c2, c3, c4, Prod.mk.injEq, and_true, true_and]
            omega

/-- The completion step of `clean_json_response` always appends exactly the
brace count difference (as `}`s) and then the bracket count difference
(as `]`s), in that order. -/
theorem complete_brackets_eq (s : String) :
    complete_brackets s =
      s ++ String.mk (List.replicate (s.data.count '{' - s.data.count '}') '}')
        ++ String.mk (List.replicate (s.data.count '[' - s.data.count ']') ']') := by
  apply String.ext
  unfold complete_brackets count_unclosed_chars
  dsimp only
  by_cases hb : s.data.count '{' - s.data.count '}' > 0 <;>
    by_cases hk : s.data.count '[' - s.data.count ']' > 0
  · simp [hb, hk, apply_ite String.data, String.data_append, List.count_append,
      List.count_replicate]
  · have hk0 : s.data.count '[' - s.data.count ']' = 0 := by omega
    simp [hb, apply_ite String.data, String.data_append, List.count_append,
      List.count_replicate, hk0]
  · have hb0 : s.data.count '{' - s.data.count '}' = 0 := by omega
    simp [hb, hk, apply_ite String.data, String.data_append, List.count_append,
      List.count_replicate, hb0]
  · have hb0 : s.data.count '{' - s.data.count '}' = 0 := by omega
    have hk0 : s.data.count '[' - s.data.count ']' = 0 := by omega
    simp [hb, hk, apply_ite String.data, String.data_append, List.count_append,
      List.count_replicate, hb0, hk0]

/-- Claim C6 (amended).  For text with unmatched openers and no interior
corruption (no closer before its matching opener), both repair sites
append exactly the missing closers, and the result has zero unmatched
delimiters of each kind (equally many openers and closers).  But the two
sites disagree on the order: `clean_json_response` appends the braces
first and then the brackets, while `_handle_response` appends the
brackets first and then the braces (the order the claim states). -/
theorem repair_completion_order_and_balance (s : String)
    (h : prefix_ok s.data 0 0 = true) :
    (complete_brackets s =
        s ++ String.mk (List.replicate (s.data.count '{' - s.data.count '}') '}')
          ++ String.mk (List.replicate (s.data.count '[' - s.data.count ']') ']')
      ∧ (complete_brackets s).data.count '{' = (complete_brackets s).data.count '}'
      ∧ (complete_brackets s).data.count '[' = (complete_brackets s).data.count ']')
    ∧ (hr_complete s =
        s ++ String.mk (List.replicate (s.data.count '[' - s.data.count ']') ']')
          ++ String.mk (List.replicate (s.data.count '{' - s.data.count '}') '}')
      ∧ (hr_complete s).data.count '{' = (hr_complete s).data.count '}'
      ∧ (hr_complete s).data.count '[' = (hr_complete s).data.count ']') := by
  obtain ⟨e1, i1, i2⟩ := hr_scan_of_prefix_ok s.data 0 0 h
  simp only [Nat.zero_add] at e1 i1 i2
  constructor
  · refine ⟨complete_brackets_eq s, ?_, ?_⟩ <;>
      (rw [complete_brackets_eq]
       simp [String.data_append, List.count_append, List.count_replicate]
       omega)
  · unfold hr_complete
    rw [e1]
    refine ⟨rfl, ?_, ?_⟩ <;>
      (simp [String.data_append, List.count_append, List.count_replicate]
       omega)

/-- Witness for `repair_completion_order_and_balance` at the two-opener text. -/
theorem repair_completion_order_and_balance_witness :
    prefix_ok "[\x7b".data 0 0 = true
    ∧ complete_brackets "[\x7b" = "[\x7b" ++ "\x7d" ++ "]"
    ∧ hr_complete "[\x7b" = "[\x7b" ++ "]" ++ "\x7d" := by
  have h := repair_completion_order_and_balance "[\x7b" (by decide)
  exact ⟨by decide, h.1.1.trans (by decide), h.2.1.trans (by decide)⟩

/-- Claim C4 (counterexample).  The first offending node is *not* named:
two structured inputs whose first chapters differ ("A" versus "B"), each
missing its `sections` list, produce the identical fixed error message
`"Invalid chapter data"`, which mentions neither chapter. -/
theorem validation_error_names_no_node_counterexample :
    parse_outline_json_val (outline_with_chapters [chapter_missing_sections "A"])
        = .error "Invalid chapter data"
    ∧ parse_outline_json_val (outline_with_chapters [chapter_missing_sections "B"])
        = .error "Invalid chapter data"
    ∧ ("A" : String) ≠ "B"
    ∧ strContains "Invalid chapter data" "A" = false
    ∧ strContains "Invalid chapter data" "B" = false := by
  refine ⟨rfl, rfl, by decide, by decide, by decide⟩

/-- A present string field can be read back. -/
theorem py_str_field_ok_spec (fs : List (String × JValue)) (k : String)
    (h : py_str_field_ok fs k = true) :
    ∃ t, get_field fs k = some (.str t) := by
  unfold py_str_field_ok at h
  split at h
  · next t heq => exact ⟨t, heq⟩
  · exact absurd h (by simp)

theorem parse_sub_section_ok (j : JValue) (h : subSectionOK j = true) :
    ∃ s, parse_sub_section j = .ok s := by
  cases j <;> simp only [subSectionOK] at h <;> try exact Bool.noConfusion h
  case obj fs =>
  simp only [Bool.and_eq_true] at h
  obtain ⟨t1, hg1⟩ := py_str_field_ok_spec fs "sub_section_title" h.1
  obtain ⟨t2, hg2⟩ := py_str_field_ok_spec fs "content_summary" h.2
  refine ⟨⟨t1, t2⟩, ?_⟩
  simp [parse_sub_section, py_contains_key, has_field, py_get_str_field, py_getitem,
    hg1, hg2]

theorem parse_sub_sections_ok (js : List JValue) (h : js.all subSectionOK = true) :
    ∃ ss, parse_sub_sections js = .ok ss := by
  induction js with
  | nil => exact ⟨[], rfl⟩
  | cons j rest ih =>
    simp only [List.all_cons, Bool.and_eq_true] at h
    obtain ⟨s, hs⟩ := parse_sub_section_ok j h.1
    obtain ⟨ss, hss⟩ := ih h.2
    exact ⟨s :: ss, by simp [parse_sub_sections, hs, hss]⟩

theorem parse_section_ok (j : JValue) (h : sectionOK j = true) :
    ∃ s, parse_section j = .ok s := by
  cases j <;> simp only [sectionOK] at h <;> try exact Bool.noConfusion h
  case obj fs =>
  simp only [Bool.and_eq_true] at h
  obtain ⟨h1, h2⟩ := h
  obtain ⟨t, hg⟩ := py_str_field_ok_spec fs "section_title" h1
  split at h2
  · next xs heq =>
    obtain ⟨ss, hss⟩ := parse_sub_sections_ok xs h2
    refine ⟨⟨t, ss⟩, ?_⟩
    simp [parse_section, py_contains_key, has_field, py_getitem, py_get_str_field,
      hg, heq, hss]
  · exact absurd h2 (by simp)

theorem parse_sections_ok (js : List JValue) (h : js.all sectionOK = true) :
    ∃ ss, parse_sections js = .ok ss := by
  induction js with
  | nil => exact ⟨[], rfl⟩
  | cons j rest ih =>
    simp only [List.all_cons, Bool.and_eq_true] at h
    obtain ⟨s, hs⟩ := parse_section_ok j h.1
    obtain ⟨ss, hss⟩ := ih h.2
    exact ⟨s :: ss, by simp [parse_sections, hs, hss]⟩

theorem parse_chapter_ok (j : JValue) (h : chapterOK j = true) :
    ∃ c, parse_chapter j = .ok c := by
  cases j <;> simp only [chapterOK] at h <;> try exact Bool.noConfusion h
  case obj fs =>
  simp only [Bool.and_eq_true] at h
  obtain ⟨h1, h2⟩ := h
  obtain ⟨t, hg⟩ := py_str_field_ok_spec fs "chapter_title" h1
  split at h2
  · next xs heq =>
    obtain ⟨ss, hss⟩ := parse_sections_ok xs h2
    refine ⟨⟨t, ss⟩, ?_⟩
    simp [parse_chapter, py_contains_key, has_field, py_getitem, py_get_str_field,
      hg, heq, hss]
  · exact absurd h2 (by simp)

/-- The chapter loop aborts at the first failing chapter, whatever
follows it. -/
theorem parse_chapters_error_at_first_bad (pre : List JValue)
    (hpre : pre.all chapterOK = true) (bad : JValue) (e : String)
    (hbad : parse_chapter bad = .error e) (rest : List JValue) :
    parse_chapters (pre ++ bad :: rest) = .error e := by
  induction pre with
  | nil => simp [parse_chapters, hbad]
  | cons c t ih =>
    simp only [List.all_cons, Bool.and_eq_true] at hpre
    obtain ⟨ch, hch⟩ := parse_chapter_ok c hpre.1
    have hrest := ih hpre.2
    simp [parse_chapters, hch, hrest]

/-- A chapter node with a title but no `sections` key fails with the
generic message. -/
theorem parse_chapter_missing_sections (t : String) :
    parse_chapter (chapter_missing_sections t) = .error "Invalid chapter data" := rfl

/-- Claim C4 (amended).  Validation does fail fast: for any structured
outline whose chapter list starts with any number of fully valid chapters
followed by a chapter missing its `sections` list, parsing aborts at that
first offending chapter with the error — `rest`, the part after the
offender, is never examined, and no partial outline is returned.  But the
error is the *generic* fixed string `"Invalid chapter data"` (likewise
`"Invalid section data"` / `"Invalid sub_section data"` at the other
levels): it does not name or locate the offending node; only the missing
root field is named (`"Invalid outline JSON: missing body_paragraphs"`). -/
theorem validator_fails_fast_with_generic_error (pre rest : List JValue) (t : String)
    (hpre : pre.all chapterOK = true) :
    parse_outline_json_val
        (outline_with_chapters (pre ++ chapter_missing_sections t :: rest))
      = .error "Invalid chapter data" := by
  have h := parse_chapters_error_at_first_bad pre hpre (chapter_missing_sections t)
      "Invalid chapter data" (parse_chapter_missing_sections t) rest
  simp [parse_outline_json_val, outline_with_chapters, parse_outline_data, jTruthy,
    has_field, get_field, h]

/-- Witness for `validator_fails_fast_with_generic_error`: one valid
chapter, then a chapter `"X"` missing `sections`, then trailing junk. -/
theorem validator_fails_fast_witness :
    ([JValue.obj [("chapter_title", .str "C1"),
        ("sections", .arr [.obj [("section_title", .str "S1"),
          ("sub_sections", .arr [.obj [("sub_section_title", .str "1.1 T"),
            ("content_summary", .str "D")]])]])]].all chapterOK = true)
    ∧ parse_outline_json_val
        (outline_with_chapters
          ([JValue.obj [("chapter_title", .str "C1"),
              ("sections", .arr [.obj [("section_title", .str "S1"),
                ("sub_sections", .arr [.obj [("sub_section_title", .str "1.1 T"),
                  ("content_summary", .str "D")]])]])]]
            ++ chapter_missing_sections "X" :: [JValue.null]))
      = .error "Invalid chapter data" :=
  ⟨by decide,
   validator_fails_fast_with_generic_error _ [JValue.null] "X" (by decide)⟩

theorem build_groups_aux_ok : ∀ (fs : List Fragment) (gs : List SGroup),
    (∀ f ∈ fs, (section_number_of f.title).isSome = true) →
    ∃ gs', build_groups_aux gs fs = .ok gs' := by
  intro fs
  induction fs with
  | nil => intro gs _; exact ⟨gs, rfl⟩
  | cons f rest ih =>
    intro gs h
    have hf := h f (by simp)
    rcases hnum : section_number_of f.title with _ | num
    · rw [hnum] at hf; simp at hf
    · obtain ⟨gs', hgs'⟩ :=
        ih (add_to_groups gs num (group_title num f.title) f)
          (fun x hx => h x (by simp [hx]))
      exact ⟨gs', by simp [build_groups_aux, hnum, hgs']⟩

theorem chapter_parts_ok (ch : String) (frags : List Fragment)
    (h : ∀ f ∈ frags, (section_number_of f.title).isSome = true) :
    ∃ ps, chapter_parts ch frags = .ok ps := by
  obtain ⟨gs, hgs⟩ := build_groups_aux_ok frags [] h
  refine ⟨("# " ++ ch ++ "\n\n") ::
      (sorted_group_keys gs).foldr (fun num acc =>
        ((find_group gs num).elim [] (fun g =>
          ("## " ++ g.title ++ "\n\n") ::
            g.subs.map (fun sub => "### " ++ sub.title ++ "\n\n" ++ sub.content ++ "\n\n")))
          ++ acc) [], ?_⟩
  unfold chapter_parts build_groups
  rw [hgs]

theorem all_chapter_parts_ok : ∀ (org : List (String × List Fragment)),
    (∀ p ∈ org, ∀ f ∈ p.2, (section_number_of f.title).isSome = true) →
    ∃ parts, all_chapter_parts org = .ok parts := by
  intro org
  induction org with
  | nil => intro _; exact ⟨[], rfl⟩
  | cons p rest ih =>
    intro h
    obtain ⟨ps, hps⟩ := chapter_parts_ok p.1 p.2 (h p (by simp))
    obtain ⟨qs, hqs⟩ := ih (fun q hq => h q (by simp [hq]))
    refine ⟨ps ++ qs, ?_⟩
    cases p with
    | mk ch frags => simp [all_chapter_parts, hps, hqs]

/-- Claim C9 (amended).  Assembly is total on fragments whose title has at
least one whitespace-separated token: those with no line matching their
numeric prefix fall back to the literal `num + " 未知标题"` ("unknown
title") group label, and the document is produced with success.  But a
fragment whose title is empty or whitespace-only (no token at all) makes
the prefix extraction raise `IndexError`; the outer `except` catches it
and `_save_results_async` returns `(False, "")` — no document is
produced and nothing is grouped under the placeholder. -/
theorem assembler_total_on_tokenful_titles (organized : List (String × List Fragment))
    (h : ∀ p ∈ organized, ∀ f ∈ p.2, (section_number_of f.title).isSome = true) :
    (save_results organized).1 = true
    ∧ (∀ num title, section_number_of title = some num →
        (∀ line ∈ pySplitOnChar title '\n', pyStartsWith line (num ++ " ") = false) →
        group_title num title = num ++ " " ++ "未知标题") := by
  constructor
  · obtain ⟨parts, hparts⟩ := all_chapter_parts_ok organized h
    simp [save_results, hparts]
  · intro num title _ hlines
    unfold group_title
    rw [List.find?_eq_none.mpr (by intro line hline; simp [hlines line hline])]

/-- Witness for `assembler_total_on_tokenful_titles`: a fragment titled
`"Hello"` (tokenful, no matching line) assembles with success, under the
label `"Hello 未知标题"`. -/
theorem assembler_total_on_tokenful_titles_witness :
    (save_results [("C", [⟨"Hello", "x"⟩])]).1 = true
    ∧ group_title "Hello" "Hello" = "Hello" ++ " " ++ "未知标题" := by
  have h := assembler_total_on_tokenful_titles [("C", [⟨"Hello", "x"⟩])]
    (by intro p hp f hf; simp at hp; subst hp; simp at hf; subst hf; decide)
  exact ⟨h.1, h.2 "Hello" "Hello" (by decide) (by decide)⟩

/-- Claim C2 (amended).  Expansion is total: every flattened work item
yields exactly one fragment (a transport failure for an item becomes a
placeholder fragment `"生成失败：..."`, never a missing one), so N items
give N fragments.  But the boolean the scheduler returns is exactly the
assembly/save flag: it is `true` whenever saving succeeds, *regardless*
of per-item failures — it does not satisfy "true only if every item
produced non-placeholder content". -/
theorem expand_total_and_flag_is_save_flag (st : WorkflowState) (o : Outline)
    (gen : WorkItem → Except String String) :
    (expand_results o gen).length = (flatten_outline o).length
    ∧ (generate_full_content st (some o) gen).2 =
        (save_results (organize_results (expand_results o gen) (flatten_outline o))).1
    ∧ (∀ w ∈ flatten_outline o, ∀ e, gen w = .error e →
        generate_section_content gen w = ⟨w.title, "生成失败：" ++ e⟩) := by
  refine ⟨List.length_map _ _, ?_, ?_⟩
  · unfold generate_full_content expand_results
    dsimp only
    split <;> rfl
  · intro w _ e hw
    unfold generate_section_content
    rw [hw]

/-- Witness for `expand_total_and_flag_is_save_flag` at the two-leaf
outline with one failing item. -/
theorem expand_total_and_flag_is_save_flag_witness :
    (expand_results o_two_leaves gen_one_failure).length
        = (flatten_outline o_two_leaves).length
    ∧ (generate_full_content init_state (some o_two_leaves) gen_one_failure).2 =
        (save_results (organize_results (expand_results o_two_leaves gen_one_failure)
          (flatten_outline o_two_leaves))).1
    ∧ generate_section_content gen_one_failure ⟨"1.1 a", "d1", "C"⟩
        = ⟨"1.1 a", "生成失败：" ++ "boom"⟩ := by
  have h := expand_total_and_flag_is_save_flag init_state o_two_leaves gen_one_failure
  exact ⟨h.1, h.2.1, h.2.2 ⟨"1.1 a", "d1", "C"⟩ (by decide) "boom" rfl⟩

theorem strLtChars_asymm : ∀ as bs, strLtChars as bs = true → strLtChars bs as = false := by
  intro as
  induction as with
  | nil => intro bs h; cases bs <;> simp_all [strLtChars]
  | cons a at' ih =>
    intro bs h
    cases bs with
    | nil => simp [strLtChars] at h
    | cons b bt =>
      simp only [strLtChars] at h ⊢
      by_cases hab : a < b
      · rw [if_neg (lt_asymm hab), if_pos hab]
      · rw [if_neg hab] at h
        by_cases hba : b < a
        · rw [if_pos hba] at h; exact absurd h (by simp)
        · rw [if_neg hba] at h
          rw [if_neg hba, if_neg hab]
          exact ih bt h

theorem strLtChars_trans : ∀ as bs cs, strLtChars as bs = true → strLtChars bs cs = true →
    strLtChars as cs = true := by
  intro as
  induction as with
  | nil =>
    intro bs cs h1 h2
    cases bs with
    | nil => simp [strLtChars] at h1
    | cons b bt =>
      cases cs with
      | nil => simp [strLtChars] at h2
      | cons c ct => simp [strLtChars]
  | cons a at' ih =>
    intro bs cs h1 h2
    cases bs with
    | nil => simp [strLtChars] at h1
    | cons b bt =>
      cases cs with
      | nil => simp [strLtChars] at h2
      | cons c ct =>
        simp only [strLtChars] at h1 h2 ⊢
        by_cases hab : a < b
        · by_cases hbc : b < c
          · rw [if_pos (lt_trans hab hbc)]
          · rw [if_neg hbc] at h2
            by_cases hcb : c < b
            · rw [if_pos hcb] at h2; exact absurd h2 (by simp)
            · have hbceq : b = c := le_antisymm (not_lt.mp hcb) (not_lt.mp hbc)
              subst hbceq
              rw [if_pos hab]
        · rw [if_neg hab] at h1
          by_cases hba : b < a
          · rw [if_pos hba] at h1; exact absurd h1 (by simp)
          · rw [if_neg hba] at h1
            have habeq : a = b := le_antisymm (not_lt.mp hba) (not_lt.mp hab)
            subst habeq
            by_cases hac : a < c
            · rw [if_pos hac]
            · rw [if_neg hac] at h2 ⊢
              by_cases hca : c < a
              · rw [if_pos hca] at h2; exact absurd h2 (by simp)
              · rw [if_neg hca] at h2 ⊢
                exact ih bt ct h1 h2

theorem strLtChars_connex : ∀ as bs, strLtChars as bs = false → strLtChars bs as = false →
    as = bs := by
  intro as
  induction as with
  | nil => intro bs h1 _; cases bs with
    | nil => rfl
    | cons b bt => simp [strLtChars] at h1
  | cons a at' ih =>
    intro bs h1 h2
    cases bs with
    | nil => simp [strLtChars] at h2
    | cons b bt =>
      simp only [strLtChars] at h1 h2
      by_cases hab : a < b
      · rw [if_pos hab] at h1; exact absurd h1 (by simp)
      · by_cases hba : b < a
        · rw [if_pos hba] at h2; exact absurd h2 (by simp)
        · rw [if_neg hab, if_neg hba] at h1
          rw [if_neg hba, if_neg hab] at h2
          have habeq : a = b := le_antisymm (not_lt.mp hba) (not_lt.mp hab)
          rw [habeq, ih bt h1 h2]

instance : IsTotal String (fun a b => pyStrLe a b = true) := by
  constructor
  intro a b
  unfold pyStrLe
  by_cases h : strLtChars b.data a.data = true
  · right; simp [strLtChars_asymm _ _ h]
  · left; simp [Bool.not_eq_true] at h; simp [h]

instance : IsTrans String (fun a b => pyStrLe a b = true) := by
  constructor
  intro a b c hab hbc
  unfold pyStrLe at *
  simp only [Bool.not_eq_true'] at hab hbc ⊢
  by_cases hca : strLtChars c.data a.data = true
  · by_cases hab' : strLtChars a.data b.data = true
    · exact absurd (strLtChars_trans _ _ _ hca hab') (by simp [hbc])
    · simp [Bool.not_eq_true] at hab'
      have := strLtChars_connex _ _ hab' hab
      rw [← this] at hbc
      exact absurd hca (by simp [hbc])
  · simp [Bool.not_eq_true] at hca; exact hca

theorem indexOf_lt_of_sorted_le : ∀ (l : List String),
    l.Sorted (fun a b => pyStrLe a b = true) → ∀ (a b : String),
    a ∈ l → b ∈ l → a ≠ b → pyStrLe b a = false →
    l.indexOf a < l.indexOf b := by
  intro l
  induction l with
  | nil => intro _ a b ha; cases ha
  | cons c t ih =>
    intro hs a b ha hb hne hlt
    rw [List.sorted_cons] at hs
    by_cases hca : c = a
    · subst hca
      rw [List.indexOf_cons_self]
      have hbne : b ≠ c := Ne.symm hne
      have hbt : b ∈ t := by
        rcases List.mem_cons.mp hb with h | h
        · exact absurd h hbne
        · exact h
      rw [List.indexOf_cons_ne _ (Ne.symm hbne)]
      exact Nat.succ_pos _
    · have hat : a ∈ t := by
        rcases List.mem_cons.mp ha with h | h
        · exact absurd h.symm (by simpa [eq_comm] using hca)
        · exact h
      by_cases hcb : c = b
      · subst hcb
        have := hs.1 a hat
        rw [hlt] at this
        exact absurd this (by simp)
      · have hbt : b ∈ t := by
          rcases List.mem_cons.mp hb with h | h
          · exact absurd h.symm (by simpa [eq_comm] using hcb)
          · exact h
        rw [List.indexOf_cons_ne _ hca, List.indexOf_cons_ne _ hcb]
        exact Nat.succ_lt_succ (ih hs.2 a b hat hbt hne hlt)

theorem num_mem_add_to_groups (gs : List SGroup) (num gtitle : String) (f : Fragment) :
    num ∈ (add_to_groups gs num gtitle f).map SGroup.num := by
  induction gs with
  | nil => simp [add_to_groups]
  | cons g t ih =>
    by_cases h : g.num = num
    · simp [add_to_groups, h]
    · simp only [add_to_groups, if_neg h, List.map_cons, List.mem_cons]
      right; exact ih

theorem keys_monotone_add_to_groups (gs : List SGroup) (num gtitle : String)
    (f : Fragment) (x : String) (hx : x ∈ gs.map SGroup.num) :
    x ∈ (add_to_groups gs num gtitle f).map SGroup.num := by
  induction gs with
  | nil => simp at hx
  | cons g t ih =>
    by_cases h : g.num = num
    · simpa [add_to_groups, h] using hx
    · simp only [List.map_cons, List.mem_cons] at hx
      rcases hx with hx | hx
      · simp [add_to_groups, if_neg h, hx]
      · simp only [add_to_groups, if_neg h, List.map_cons, List.mem_cons]
        right; exact ih hx

theorem keys_monotone_build_groups_aux : ∀ (fs : List Fragment) (gs gs' : List SGroup),
    build_groups_aux gs fs = .ok gs' →
    ∀ x ∈ gs.map SGroup.num, x ∈ gs'.map SGroup.num := by
  intro fs
  induction fs with
  | nil =>
    intro gs gs' h x hx
    injection h with h'
    rw [← h']; exact hx
  | cons f rest ih =>
    intro gs gs' h x hx
    unfold build_groups_aux at h
    rcases hnum : section_number_of f.title with _ | num
    · rw [hnum] at h; cases h
    · rw [hnum] at h
      exact ih _ _ h x (keys_monotone_add_to_groups gs num _ f x hx)

theorem num_mem_keys_of_build_groups_aux : ∀ (fs : List Fragment) (gs gs' : List SGroup)
    (f : Fragment) (num : String),
    build_groups_aux gs fs = .ok gs' → f ∈ fs → section_number_of f.title = some num →
    num ∈ gs'.map SGroup.num := by
  intro fs
  induction fs with
  | nil => intro _ _ _ _ _ hf; cases hf
  | cons g rest ih =>
    intro gs gs' f num h hf hnum
    unfold build_groups_aux at h
    rcases hg : section_number_of g.title with _ | gnum
    · rw [hg] at h; cases h
    · rw [hg] at h
      rcases List.mem_cons.mp hf with heq | hf'
      · subst heq
        rw [hnum] at hg; injection hg with hg'; subst hg'
        exact keys_monotone_build_groups_aux rest _ _ h num
          (num_mem_add_to_groups gs num _ f)
      · exact ih _ _ f num h hf' hnum

/-- Claim C8 (confirmed).  Within one chapter the assembler emits the
numeric-prefix groups in the order of Python's `sorted` on the prefix
*strings*, i.e. lexicographic comparison: whenever the chapter holds a
fragment with prefix `"10.1"` and one with prefix `"2.1"`, the `"10.1"`
group comes strictly before the `"2.1"` group (because `'1' < '2'`),
not after it as numeric comparison would order them. -/
theorem chapter_groups_sorted_lexicographically (frags : List Fragment)
    (gs : List SGroup) (f₁ f₂ : Fragment)
    (h₁ : f₁ ∈ frags) (h₂ : f₂ ∈ frags)
    (hn₁ : section_number_of f₁.title = some "10.1")
    (hn₂ : section_number_of f₂.title = some "2.1")
    (hb : build_groups frags = .ok gs) :
    (sorted_group_keys gs).indexOf "10.1" < (sorted_group_keys gs).indexOf "2.1" := by
  have hm₁ : "10.1" ∈ gs.map SGroup.num :=
    num_mem_keys_of_build_groups_aux frags [] gs f₁ "10.1" hb h₁ hn₁
  have hm₂ : "2.1" ∈ gs.map SGroup.num :=
    num_mem_keys_of_build_groups_aux frags [] gs f₂ "2.1" hb h₂ hn₂
  have hperm := List.perm_insertionSort
    (fun a b : String => pyStrLe a b = true) (gs.map SGroup.num)
  have hsorted := List.sorted_insertionSort
    (fun a b : String => pyStrLe a b = true) (gs.map SGroup.num)
  exact indexOf_lt_of_sorted_le _ hsorted "10.1" "2.1"
    (hperm.mem_iff.mpr hm₁) (hperm.mem_iff.mpr hm₂) (by decide) (by decide)

/-- Witness for `chapter_groups_sorted_lexicographically` on a chapter
with fragments "10.1 a" and "2.1 b". -/
theorem chapter_groups_sorted_lexicographically_witness :
    build_groups [⟨"10.1 a", "x"⟩, ⟨"2.1 b", "y"⟩] =
      .ok [⟨"10.1", "10.1 a", [⟨"10.1 a", "x"⟩]⟩, ⟨"2.1", "2.1 b", [⟨"2.1 b", "y"⟩]⟩]
    ∧ (sorted_group_keys [⟨"10.1", "10.1 a", [⟨"10.1 a", "x"⟩]⟩,
          ⟨"2.1", "2.1 b", [⟨"2.1 b", "y"⟩]⟩]).indexOf "10.1"
        < (sorted_group_keys [⟨"10.1", "10.1 a", [⟨"10.1 a", "x"⟩]⟩,
            ⟨"2.1", "2.1 b", [⟨"2.1 b", "y"⟩]⟩]).indexOf "2.1" :=
  ⟨rfl,
   chapter_groups_sorted_lexicographically
     [⟨"10.1 a", "x"⟩, ⟨"2.1 b", "y"⟩]
     [⟨"10.1", "10.1 a", [⟨"10.1 a", "x"⟩]⟩, ⟨"2.1", "2.1 b", [⟨"2.1 b", "y"⟩]⟩]
     ⟨"10.1 a", "x"⟩ ⟨"2.1 b", "y"⟩
     (by decide) (by decide) (by decide) (by decide) rfl⟩

theorem foldl_append_bind {α β : Type} (g : α → List β) :
    ∀ (l : List α) (init : List β),
      l.foldl (fun acc x => acc ++ g x) init = init ++ l.bind g := by
  intro l
  induction l with
  | nil => intro init; simp
  | cons x xs ih => intro init; simp [List.foldl_cons, ih]

theorem bind_singleton_eq_map {α β : Type} (f : α → β) :
    ∀ (l : List α), (l.bind fun x => [f x]) = l.map f := by
  intro l
  induction l with
  | nil => rfl
  | cons x xs ih => simp [ih]

theorem sub_fold_eq (ct : String) (subs : List SubSection) (acc : List WorkItem) :
    subs.foldl (fun acc₃ sub =>
        acc₃ ++ [⟨sub.sub_section_title, sub.content_summary, ct⟩]) acc
      = acc ++ subs.map (fun sub => ⟨sub.sub_section_title, sub.content_summary, ct⟩) := by
  rw [foldl_append_bind, bind_singleton_eq_map]

theorem sec_fold_eq (ct : String) (secs : List Section) (acc : List WorkItem) :
    secs.foldl (fun acc₂ sec =>
        sec.sub_sections.foldl (fun acc₃ sub =>
          acc₃ ++ [⟨sub.sub_section_title, sub.content_summary, ct⟩]) acc₂) acc
      = acc ++ secs.bind (fun sec =>
          sec.sub_sections.map (fun sub =>
            ⟨sub.sub_section_title, sub.content_summary, ct⟩)) := by
  simp only [sub_fold_eq]
  exact foldl_append_bind _ secs acc

theorem flatten_outline_eq (o : Outline) :
    flatten_outline o = o.body_paragraphs.bind chapter_leaf_items := by
  unfold flatten_outline chapter_leaf_items
  simp only [sec_fold_eq]
  exact (foldl_append_bind _ o.body_paragraphs []).trans (by simp)

theorem chapter_of_mem_leaf_items (ch : Chapter) (w : WorkItem)
    (hw : w ∈ chapter_leaf_items ch) : w.chapter = ch.chapter_title := by
  unfold chapter_leaf_items at hw
  simp only [List.mem_bind, List.mem_map] at hw
  obtain ⟨sec, _, sub, _, rfl⟩ := hw
  rfl

theorem chapter_insert_fresh : ∀ (acc b : List (String × List Fragment)) (ch : String)
    (r : Fragment), ch ∉ acc.map Prod.fst →
    chapter_insert (acc ++ b) ch r = acc ++ chapter_insert b ch r := by
  intro acc
  induction acc with
  | nil => intro b ch r _; rfl
  | cons p t ih =>
    intro b ch r h
    simp only [List.map_cons, List.mem_cons] at h
    push_neg at h
    cases p with
    | mk c rs =>
      simp only [List.cons_append, chapter_insert, List.append_eq]
      rw [if_neg (fun hh => h.1 hh.symm)]
      rw [ih b ch r h.2]

theorem foldl_chapter_insert_fresh_front :
    ∀ (ps : List (Fragment × WorkItem)) (acc b : List (String × List Fragment)),
      (∀ pr ∈ ps, pr.2.chapter ∉ acc.map Prod.fst) →
      ps.foldl (fun a pr => chapter_insert a pr.2.chapter pr.1) (acc ++ b)
        = acc ++ ps.foldl (fun a pr => chapter_insert a pr.2.chapter pr.1) b := by
  intro ps
  induction ps with
  | nil => intro acc b _; rfl
  | cons p rest ih =>
    intro acc b h
    have hp : p.2.chapter ∉ acc.map Prod.fst := h p (by simp)
    simp only [List.foldl_cons]
    rw [chapter_insert_fresh acc b p.2.chapter p.1 hp]
    exact ih acc _ (fun q hq => h q (by simp [hq]))

theorem foldl_chapter_insert_same_key (t : String) :
    ∀ (ps : List (Fragment × WorkItem)) (rs : List Fragment),
      (∀ pr ∈ ps, pr.2.chapter = t) →
      ps.foldl (fun a pr => chapter_insert a pr.2.chapter pr.1) [(t, rs)]
        = [(t, rs ++ ps.map Prod.fst)] := by
  intro ps
  induction ps with
  | nil => intro rs _; simp
  | cons p rest ih =>
    intro rs h
    have hp : p.2.chapter = t := h p (by simp)
    simp only [List.foldl_cons, hp, chapter_insert, if_pos rfl, if_true]
    rw [ih (rs ++ [p.1]) (fun q hq => h q (by simp [hq]))]
    simp

theorem foldl_chapter_insert_uniform (t : String) (ps : List (Fragment × WorkItem))
    (h : ∀ pr ∈ ps, pr.2.chapter = t) (hne : ps ≠ []) :
    ps.foldl (fun a pr => chapter_insert a pr.2.chapter pr.1) []
      = [(t, ps.map Prod.fst)] := by
  cases ps with
  | nil => exact absurd rfl hne
  | cons p rest =>
    have hp : p.2.chapter = t := h p (by simp)
    simp only [List.foldl_cons, hp, chapter_insert]
    rw [foldl_chapter_insert_same_key t rest [p.1] (fun q hq => h q (by simp [hq]))]
    simp

theorem pair_chapter_mem (rest : List Chapter) (gen : WorkItem → Except String String)
    (pr : Fragment × WorkItem)
    (h : pr ∈ rest.bind (fun ch => (chapter_leaf_items ch).map
        (fun w => (generate_section_content gen w, w)))) :
    pr.2.chapter ∈ rest.map Chapter.chapter_title := by
  simp only [List.mem_bind, List.mem_map] at h
  obtain ⟨ch, hch, w, hw, rfl⟩ := h
  simp only [List.mem_map]
  exact ⟨ch, hch, (chapter_of_mem_leaf_items ch w hw).symm⟩

theorem organize_keys_of_nodup :
    ∀ (chs : List Chapter) (gen : WorkItem → Except String String),
      (chs.map Chapter.chapter_title).Nodup →
      ((chs.bind (fun ch => (chapter_leaf_items ch).map
          (fun w => (generate_section_content gen w, w)))).foldl
        (fun a pr => chapter_insert a pr.2.chapter pr.1) []).map Prod.fst
        = (chs.filter (fun ch => !(chapter_leaf_items ch).isEmpty)).map
            Chapter.chapter_title := by
  intro chs gen
  induction chs with
  | nil => intro _; rfl
  | cons ch rest ih =>
    intro hnd
    simp only [List.map_cons, List.nodup_cons] at hnd
    obtain ⟨hnotin, hnd'⟩ := hnd
    simp only [List.cons_bind, List.foldl_append]
    by_cases hempty : (chapter_leaf_items ch).isEmpty
    · have hzero : chapter_leaf_items ch = [] := by
        simpa [List.isEmpty_iff] using hempty
      rw [hzero]
      simp only [List.map_nil, List.foldl_nil]
      rw [List.filter_cons_of_neg (by simp [hempty])]
      exact ih hnd'
    · have hne : (chapter_leaf_items ch).map
          (fun w => (generate_section_content gen w, w)) ≠ [] := by
        intro hmap
        rw [List.map_eq_nil_iff] at hmap
        exact hempty (by simp [hmap])
      rw [foldl_chapter_insert_uniform ch.chapter_title _
        (by
          intro pr hpr
          simp only [List.mem_map] at hpr
          obtain ⟨w, hw, rfl⟩ := hpr
          exact chapter_of_mem_leaf_items ch w hw) hne]
      rw [show ([(ch.chapter_title, ((chapter_leaf_items ch).map
            (fun w => (generate_section_content gen w, w))).map Prod.fst)]
            : List (String × List Fragment))
          = [(ch.chapter_title, ((chapter_leaf_items ch).map
              (fun w => (generate_section_content gen w, w))).map Prod.fst)] ++ []
        from (List.append_nil _).symm]
      rw [foldl_chapter_insert_fresh_front _ _ []
        (by
          intro pr hpr
          simp only [List.map_cons, List.map_nil, List.mem_singleton]
          intro heq
          exact hnotin (heq ▸ pair_chapter_mem rest gen pr hpr))]
      rw [List.filter_cons_of_pos (by simp [hempty])]
      simp only [List.map_append, List.map_cons, List.map_nil, List.cons_append,
        List.nil_append]
      rw [ih hnd']

/-- Claim C7 (amended).  Flattening is order-preserving and total: the work
list is exactly the depth-first concatenation of every chapter's leaf
subsections, each exactly once.  The regrouped output lists, in source
order, exactly the chapters that have at least one leaf subsection
(assuming distinct chapter titles; a chapter with no leaves contributes
no work item and is silently absent from the assembled document, and
duplicate chapter titles would additionally be merged into one group). -/
theorem flatten_total_and_chapter_order (o : Outline)
    (gen : WorkItem → Except String String)
    (hnd : (o.body_paragraphs.map Chapter.chapter_title).Nodup) :
    flatten_outline o = o.body_paragraphs.bind chapter_leaf_items
    ∧ (organize_results (expand_results o gen) (flatten_outline o)).map Prod.fst
        = (o.body_paragraphs.filter
            (fun ch => !(chapter_leaf_items ch).isEmpty)).map Chapter.chapter_title := by
  refine ⟨flatten_outline_eq o, ?_⟩
  unfold organize_results expand_results
  rw [flatten_outline_eq o]
  have hzip : ((o.body_paragraphs.bind chapter_leaf_items).map
        (generate_section_content gen)).zip (o.body_paragraphs.bind chapter_leaf_items)
      = (o.body_paragraphs.bind chapter_leaf_items).map
          (fun w => (generate_section_content gen w, w)) := by
    have := List.zip_map' (generate_section_content gen) id
      (o.body_paragraphs.bind chapter_leaf_items)
    simpa using this
  rw [hzip]
  rw [List.map_bind]
  exact organize_keys_of_nodup o.body_paragraphs gen hnd

/-- Witness for `flatten_total_and_chapter_order` at the outline with an
empty chapter "A" and a one-leaf chapter "B". -/
theorem flatten_total_and_chapter_order_witness :
    (o_empty_chapter.body_paragraphs.map Chapter.chapter_title).Nodup
    ∧ flatten_outline o_empty_chapter
        = o_empty_chapter.body_paragraphs.bind chapter_leaf_items
    ∧ (organize_results (expand_results o_empty_chapter gen_body)
          (flatten_outline o_empty_chapter)).map Prod.fst
        = (o_empty_chapter.body_paragraphs.filter
            (fun ch => !(chapter_leaf_items ch).isEmpty)).map Chapter.chapter_title := by
  have h := flatten_total_and_chapter_order o_empty_chapter gen_body (by decide)
  exact ⟨by decide, h.1, h.2⟩
